import Mathlib

/-!
Verification of the randobot seed bot: a shallow embedding of the duration
parser/formatter, the seed-client request shaping and catalog loading
(`zsr.py`), and the race handler's seed lifecycle (`handler.py`), together
with theorems settling the specification claims.
-/

namespace Randobot

/-! ## Duration parsing and formatting (`handler.py`, `parse_duration` / `format_duration`) -/

/-- Time units understood by the duration parser: the `hours`, `minutes` and
`seconds` keyword arguments of `datetime.timedelta`. -/
inductive DUnit where
  | hours
  | minutes
  | seconds
deriving DecidableEq

/-- Failure modes of `parse_duration`: its two `raise ValueError` sites
(empty token list, and a scanning point with no leading number). -/
inductive FormatErr where
  | emptyArgs
  | noLeadingNumber
deriving DecidableEq

/-- Seconds denoted by one unit of the given kind. -/
def DUnit.secs : DUnit → Nat
  | .hours => 3600
  | .minutes => 60
  | .seconds => 1

/-- The decay table `{'hours': 'minutes', 'minutes': 'seconds',
'seconds': 'seconds'}` applied to the unit just consumed, giving the next
implicit default unit. -/
def DUnit.decay : DUnit → DUnit
  | .hours => .minutes
  | .minutes => .seconds
  | .seconds => .seconds

/-- Numeric value of the leading digit group (regex group 1, read by `float`;
the group is all digits, so the value is a whole number). -/
def digitsToNat (ds : List Char) : Nat :=
  ds.foldl (fun a c => a * 10 + (c.toNat - 48)) 0

/-- The unit selected from regex group 2 (`[smh:]?`): one of `s`, `m`, `h`;
a `:` or an empty match reuses the current default unit. -/
def unitOf (c : Option Char) (dflt : DUnit) : DUnit :=
  match c with
  | some 's' => .seconds
  | some 'm' => .minutes
  | some 'h' => .hours
  | _ => dflt

/-- Drop the optional unit character consumed by regex group 2. -/
def stripUnitChar : List Char → List Char
  | [] => []
  | c :: cs => if c = 's' ∨ c = 'm' ∨ c = 'h' ∨ c = ':' then cs else c :: cs

/-- One token's scanning loop (`while len(arg) > 0:` in `parse_duration`):
repeatedly match `([0-9]+)([smh:]?)` at the front, accumulate seconds, and
thread the decaying default unit. The fuel argument bounds the iteration
count; `scanToken` passes the token length, which always suffices because
every iteration consumes at least the digit group. -/
def scanTok : Nat → List Char → DUnit → Except FormatErr (Nat × DUnit)
  | _, [], dflt => .ok (0, dflt)
  | 0, _ :: _, _ => .error .noLeadingNumber
  | fuel + 1, c :: rest, dflt =>
    if c.isDigit then
      let n := digitsToNat (c :: rest.takeWhile Char.isDigit)
      let tl := rest.dropWhile Char.isDigit
      let u := unitOf tl.head? dflt
      match scanTok fuel (stripUnitChar tl) u.decay with
      | .ok (v, d2) => .ok (n * u.secs + v, d2)
      | .error e => .error e
    else .error .noLeadingNumber

/-- Scan one lowercased token completely. -/
def scanToken (cs : List Char) (dflt : DUnit) : Except FormatErr (Nat × DUnit) :=
  scanTok cs.length cs dflt

/-- `arg.lower()` (ASCII, which is all the scanner distinguishes). -/
def pyLowerChars (s : String) : List Char :=
  s.data.map Char.toLower

/-- The `for arg in args:` loop of `parse_duration`, threading the default
unit across tokens and summing the accumulated seconds. -/
def goTokens : List String → DUnit → Except FormatErr Nat
  | [], _ => .ok 0
  | a :: rest, dflt =>
    match scanToken (pyLowerChars a) dflt with
    | .error e => .error e
    | .ok (v, d2) =>
      match goTokens rest d2 with
      | .error e => .error e
      | .ok w => .ok (v + w)

/-- `parse_duration(args, default)`: raises on an empty token list, otherwise
scans every token in order; the result is the total duration in whole
seconds. -/
def parse_duration (args : List String) (dflt : DUnit) : Except FormatErr Nat :=
  if args.isEmpty then .error .emptyArgs else goTokens args dflt

/-- `natjoin(sequence, default)`: natural-language list joining. -/
def natjoin (sequence : List String) (dflt : String) : String :=
  match sequence with
  | [] => dflt
  | [a] => a
  | [a, b] => a ++ " and " ++ b
  | l => String.intercalate ", " l.dropLast ++ ", and " ++ (l.getLast?.getD "")

/-- Python `str` of the non-negative integral float produced by
`timedelta.total_seconds()` on a whole number of seconds. -/
def pyFloatRepr (n : Nat) : String :=
  toString n ++ ".0"

/-- `format_duration(duration)` on a whole number of seconds: successive
`divmod` by one hour and one minute; the hour and minute counts are ints,
while the leftover seconds component is a float in the source
(`total_seconds()`), hence its `.0` rendering. -/
def format_duration (d : Nat) : String :=
  let hours := d / 3600
  let rem1 := d % 3600
  let minutes := rem1 / 60
  let rem2 := rem1 % 60
  let parts :=
    (if 0 < hours then [toString hours ++ " hour" ++ (if hours = 1 then "" else "s")] else [])
    ++ (if 0 < minutes then [toString minutes ++ " minute" ++ (if minutes = 1 then "" else "s")] else [])
    ++ (if 0 < rem2 then [pyFloatRepr rem2 ++ " second" ++ (if rem2 = 1 then "" else "s")] else [])
  natjoin parts "0 seconds"

/-- Success predicate for scanning one token, following the spec's wording:
every scanning point of the token has a parseable leading number. Mirrors the
iteration structure of `scanTok`. -/
def tokenOkF : Nat → List Char → Bool
  | _, [] => true
  | 0, _ :: _ => false
  | fuel + 1, c :: rest =>
    c.isDigit && tokenOkF fuel (stripUnitChar (rest.dropWhile Char.isDigit))

/-- A token scans without error. -/
def tokenOk (cs : List Char) : Bool :=
  tokenOkF cs.length cs

/-- Split a rendered string into whitespace-delimited tokens, the shape in
which chat arguments reach `parse_duration`. -/
def splitSpace : List Char → List Char → List (List Char)
  | acc, [] => [acc.reverse]
  | acc, c :: cs => if c = ' ' then acc.reverse :: splitSpace [] cs else splitSpace (c :: acc) cs

/-- Tokens of a rendered string. -/
def tokensOf (s : String) : List String :=
  (splitSpace [] s.data).map fun cs => String.mk cs

/-! ## Seed client (`zsr.py`) -/

/-- One entry of `ZSR.randomizer_branches`. -/
structure BranchInfo where
  name : String
  target_name : String
  settings_endpoint : String
deriving DecidableEq

/-- `ZSR.randomizer_branches`: the five known upstream branches. -/
def randomizer_branches : List (String × BranchInfo) := [
  ("stable", ⟨"Stable (Release)", "master",
    "https://raw.githubusercontent.com/OoTRandomizer/OoT-Randomizer/release/data/presets_default.json"⟩),
  ("dev", ⟨"Dev (Main)", "dev",
    "https://raw.githubusercontent.com/OoTRandomizer/OoT-Randomizer/Dev/data/presets_default.json"⟩),
  ("dev-rob", ⟨"Dev-Rob", "devrreal",
    "https://raw.githubusercontent.com/rrealmuto/OoT-Randomizer/Dev-Rob/data/presets_default.json"⟩),
  ("dev-fenhl", ⟨"Dev-Fenhl", "devFenhl",
    "https://raw.githubusercontent.com/fenhl/OoT-Randomizer/dev-fenhl/data/presets_default.json"⟩),
  ("dev-enemy-shuffle", ⟨"Dev-Enemy-Shuffle", "devEnemyShuffle",
    "https://raw.githubusercontent.com/rrealmuto/OoT-Randomizer/enemy_shuffle/data/presets_default.json"⟩)]

/-- `ZSR.hash_map`: the fixed icon-name lookup table. -/
def hash_map : List (String × String) := [
  ("Beans", "HashBeans"),
  ("Big Magic", "HashBigMagic"),
  ("Bombchu", "HashBombchu"),
  ("Boomerang", "HashBoomerang"),
  ("Boss Key", "HashBossKey"),
  ("Bottled Fish", "HashBottledFish"),
  ("Bottled Milk", "HashBottledMilk"),
  ("Bow", "HashBow"),
  ("Compass", "HashCompass"),
  ("Cucco", "HashCucco"),
  ("Deku Nut", "HashDekuNut"),
  ("Deku Stick", "HashDekuStick"),
  ("Fairy Ocarina", "HashFairyOcarina"),
  ("Frog", "HashFrog"),
  ("Gold Scale", "HashGoldScale"),
  ("Heart Container", "HashHeart"),
  ("Hover Boots", "HashHoverBoots"),
  ("Kokiri Tunic", "HashKokiriTunic"),
  ("Lens of Truth", "HashLensOfTruth"),
  ("Longshot", "HashLongshot"),
  ("Map", "HashMap"),
  ("Mask of Truth", "HashMaskOfTruth"),
  ("Master Sword", "HashMasterSword"),
  ("Megaton Hammer", "HashHammer"),
  ("Mirror Shield", "HashMirrorShield"),
  ("Mushroom", "HashMushroom"),
  ("Saw", "HashSaw"),
  ("Silver Gauntlets", "HashSilvers"),
  ("Skull Token", "HashSkullToken"),
  ("Slingshot", "HashSlingshot"),
  ("SOLD OUT", "HashSoldOut"),
  ("Stone of Agony", "HashStoneOfAgony")]

/-- Query-parameter shaping of `ZSR.roll_seed(preset, encrypt, branch,
password)`: the API key always; `encrypt=true` for an encrypted stable seed;
`locked=true` for an encrypted dev seed; `passwordLock=true` when a password
is requested; `version=<target_name>_<latest_version>` for dev branches,
whose `get_latest_version` call first indexes `randomizer_branches[branch]`
(`none` models that `KeyError`). `latest` stands for the version string the
dev path fetches from the network. -/
def roll_seed_params (key branch : String) (encrypt password : Bool)
    (latest : String) : Option (List (String × String)) :=
  let dev : Bool := branch != "stable"
  let ps := [("key", key)]
    ++ (if encrypt && !dev then [("encrypt", "true")] else [])
    ++ (if encrypt && dev then [("locked", "true")] else [])
    ++ (if password then [("passwordLock", "true")] else [])
  if dev then
    match randomizer_branches.lookup branch with
    | none => none
    | some bi => some (ps ++ [("version", bi.target_name ++ "_" ++ latest)])
  else some ps

/-- A parameter key occurs in a query-parameter list. -/
def hasParam (ps : List (String × String)) (k : String) : Bool :=
  (ps.lookup k).isSome

/-- Outcome of `json.loads(data.get('settingsLog'))` plus the `file_hash`
projection, standing for the JSON library: `valueError` is a malformed
document, `parsed none` a document without a `file_hash` key. -/
inductive SettingsParse where
  | valueError
  | parsed (file_hash : Option (List String))

/-- Result of `ZSR.get_hash`: a hash-word string, Python `None`, or an
uncaught exception. -/
inductive GetHashOutcome where
  | value (words : String)
  | noneVal
  | typeError
  | keyError
deriving DecidableEq

/-- `ZSR.get_hash(seed_id)` given the `settingsLog` field of the details
response. A missing field makes `json.loads(None)` raise `TypeError`, which
the `except ValueError` clause does not catch; malformed JSON raises
`ValueError`, caught and turned into `None`; a parsed log without
`file_hash` raises `KeyError`; otherwise the icon names are mapped through
`hash_map` (unmapped names pass through) and joined with single spaces. -/
def get_hash (parse : String → SettingsParse) (settingsLog : Option String) :
    GetHashOutcome :=
  match settingsLog with
  | none => .typeError
  | some s =>
    match parse s with
    | .valueError => .noneVal
    | .parsed none => .keyError
    | .parsed (some items) =>
      .value (String.intercalate " " (items.map fun i => (hash_map.lookup i).getD i))

/-- One entry of the fetched `presets_default.json` document: an optional
`aliases` field plus the rest of the settings payload. -/
structure PresetEntry (α : Type) where
  aliases : Option (List String)
  payload : α
deriving DecidableEq

/-- One catalog value built by `load_presets`:
`{'full_name': preset, 'settings': settings.get(preset)}`. -/
structure PresetInfo (α : Type) where
  full_name : String
  settings : PresetEntry α
deriving DecidableEq

/-- Python `min(aliases, key=len)`: the first element of minimal length, or
`ValueError` (`none`) on an empty sequence. -/
def pyMinByLen : List String → Option String
  | [] => none
  | x :: xs => some (xs.foldl (fun acc a => if a.length < acc.length then a else acc) x)

/-- Assignment `d[k] = v` on a Python dict modelled as an insertion-ordered
association list: an existing key keeps its position but takes the new
value; a new key is appended. -/
def dictInsert {β : Type} (k : String) (v : β) : List (String × β) → List (String × β)
  | [] => [(k, v)]
  | (k', v') :: rest => if k' = k then (k, v) :: rest else (k', v') :: dictInsert k v rest

/-- The entry loop of the dict comprehension in `ZSR.load_presets`: entries
are visited in document order, each alias-declaring entry assigning
`d[min(aliases, key=len)] = {'full_name': preset, 'settings': entry}`, so a
later entry sharing a shortest alias overwrites the earlier one; an entry
whose alias list is empty makes `min` raise (`Except.error`). -/
def load_presets_go {α : Type} : List (String × PresetEntry α) →
    List (String × PresetInfo α) → Except Unit (List (String × PresetInfo α))
  | [], acc => .ok acc
  | (name, e) :: rest, acc =>
    match e.aliases with
    | none => load_presets_go rest acc
    | some als =>
      match pyMinByLen als with
      | none => .error ()
      | some k => load_presets_go rest (dictInsert k ⟨name, e⟩ acc)

/-- `ZSR.load_presets`: the dict comprehension keyed by
`min(settings[preset]['aliases'], key=len)`, with Python dict duplicate-key
semantics (the last assignment to a key wins). Entries lacking an `aliases`
field are skipped. -/
def load_presets {α : Type} (settings : List (String × PresetEntry α)) :
    Except Unit (List (String × PresetInfo α)) :=
  load_presets_go settings []

/-- A Python dict key as it occurs around `ZSR.presets`: the branch-name
strings the constructor uses, or the boolean the handler passes as the
`branch` argument. -/
inductive PyKey where
  | pbool (b : Bool)
  | pstr (s : String)
deriving DecidableEq

/-- Indexing a string-keyed dict with a `PyKey`: a boolean never equals a
string key. -/
def lookupKey {β : Type} (l : List (String × β)) : PyKey → Option β
  | .pstr s => l.lookup s
  | .pbool _ => none

/-- The `KeyError` sites on the path of `ZSR.roll_seed` from entry to the
preset settings lookup. -/
inductive RollSeedErr where
  | branchKeyError
  | presetsKeyError
  | aliasKeyError
deriving DecidableEq

/-- The lookup chain of `ZSR.roll_seed(preset, encrypt, branch)`: for a
non-stable `branch`, `get_latest_version(branch)` first indexes
`randomizer_branches[branch]`; then the request body is built from
`self.presets[branch][preset]`. -/
def roll_seed_lookup {α : Type} (presets : List (PyKey × List (String × α)))
    (branchArg : PyKey) (preset : String) : Except RollSeedErr α :=
  let dev : Bool := branchArg != PyKey.pstr "stable"
  if dev && (lookupKey randomizer_branches branchArg).isNone then
    .error .branchKeyError
  else
    match presets.lookup branchArg with
    | none => .error .presetsKeyError
    | some catalog =>
      match catalog.lookup preset with
      | none => .error .aliasKeyError
      | some settings => .ok settings

/-- The shape `ZSR.__init__` gives `self.presets`: one entry per branch key
of `randomizer_branches` (catalog contents come from the network and are
arbitrary here). -/
def zsr_init_presets (cats : String → List (String × Nat)) :
    List (PyKey × List (String × Nat)) :=
  randomizer_branches.map fun p => (PyKey.pstr p.1, cats p.1)

/-- The membership test of `RandoHandler.roll` for a non-dev command:
`preset not in self.zsr.presets`, i.e. Python membership among the keys of
the branch-keyed presets dict. -/
def handler_preset_known {α : Type} (zsrPresets : List (PyKey × List (String × α)))
    (preset : String) : Bool :=
  (zsrPresets.lookup (PyKey.pstr preset)).isSome

/-! ## Race handler (`handler.py`, `RandoHandler`) -/

/-- The per-race session fields the seed lifecycle reads and writes:
`self.state['locked']`, `self.state['fpa']`, `self.state['seed_id']` and
`self.state['status_checks']`. -/
structure SessionState where
  locked : Bool
  fpa : Bool
  seedId : Option String
  statusChecks : Nat
deriving DecidableEq

/-- `message.get('user', {})`: the sender record of a chat message. -/
structure ChatUser where
  name : Option String
deriving DecidableEq

/-- A chat-command message together with the authorization facts the
racetime library derives for its sender. -/
structure ChatMessage where
  user : Option ChatUser
  can_moderate : Bool
  is_monitor : Bool
deriving DecidableEq

/-- Modelled from the spec: `racetime_bot.can_moderate`, the authorization
oracle the handler imports (the library is not part of this repository) —
whether the sender can moderate. -/
def canModerate (m : ChatMessage) : Bool :=
  m.can_moderate

/-- Modelled from the spec: `racetime_bot.can_monitor` — a race monitor, or
anyone who can moderate. -/
def canMonitor (m : ChatMessage) : Bool :=
  m.can_moderate || m.is_monitor

/-- `message.get('user', {}).get('name')`. -/
def replyTo (m : ChatMessage) : Option String :=
  m.user.bind ChatUser.name

/-- Python truthiness of an optional string (`None` and the empty string are
falsy). -/
def pyTruthy : Option String → Bool
  | none => false
  | some s => !(s == "")

/-- Python `reply_to or 'friend'`. -/
def pyOrFriend : Option String → String
  | none => "friend"
  | some s => if s == "" then "friend" else s

/-- Python `str` of an optional string (`str(None)` is `"None"`). -/
def pyStr : Option String → String
  | some s => s
  | none => "None"

/-- The locked-rejection message of `roll_and_send`. -/
def locked_msg (reply_to : Option String) : String :=
  "Sorry " ++ pyOrFriend reply_to ++
    ", seed rolling is locked. Only race monitors may roll a seed for this race."

/-- The already-rolled rejection message of `roll_and_send`. -/
def already_rolled_msg : String :=
  "Well excuuuuuse me princess, but I already rolled a seed. Don\x27t get greedy!"

/-- The arguments `roll_and_send` forwards to `RandoHandler.roll`. -/
structure RollCall where
  preset : String
  encrypt : Bool
  dev : Bool
  reply_to : Option String
deriving DecidableEq

/-- `RandoHandler.roll_and_send(args, message, encrypt, dev)`: the locked
check, the already-rolled check, then the hand-off to `roll` with the first
argument (default `'weekly'`) as preset. The function itself never mutates
the session state — any mutation happens inside `roll` — so the state is
returned unchanged alongside the chat messages sent and the `roll` call
made, if any. -/
def roll_and_send (st : SessionState) (args : List String) (message : ChatMessage)
    (encrypt dev : Bool) : SessionState × List String × Option RollCall :=
  let reply_to := replyTo message
  if st.locked && !(canMonitor message) then
    (st, [locked_msg reply_to], none)
  else if pyTruthy st.seedId && !(canModerate message) then
    (st, [already_rolled_msg], none)
  else
    (st, [], some ⟨args.headD "weekly", encrypt, dev, reply_to⟩)

/-- Observable outputs of the polling loop: chat messages
(`send_message`) and race-info updates (`set_bot_raceinfo`). -/
inductive Ev where
  | msg (text : String)
  | raceinfo (text : String)
deriving DecidableEq

/-- `RandoHandler.max_status_checks`. -/
def max_status_checks : Nat := 50

/-- `RandoHandler.seed_url % seed_id`. -/
def seed_url_of (seedId : Option String) : String :=
  "https://ootrandomizer.com/seed/get?id=" ++ pyStr seedId

/-- The failure message of `check_seed_status`. -/
def seed_failed_msg : String :=
  "Sorry, but it looks like the seed failed to generate. Use !seed to try again."

/-- `RandoHandler.load_seed_hash`: the race-info string posted on a ready
seed — the hash from `zsr.get_hash` over the seed's public URL. -/
def load_seed_hash_info (getHash : Option String → Option String)
    (seedId : Option String) : String :=
  pyStr (getHash seedId) ++ "\n" ++ seed_url_of seedId

/-- The recursion of `RandoHandler.check_seed_status`: poll `get_status`
(`getStatus t` is the status returned by the t-th poll), and on a
still-generating seed increment the counter and reschedule while it is below
`max_status_checks`. The fuel argument bounds the recursion depth;
`check_seed_status` passes one more than the remaining budget, which always
suffices because rescheduling requires the incremented counter to stay below
the ceiling. -/
def checkSeed : Nat → (Nat → Int) → (Option String → Option String) → Nat →
    SessionState → SessionState × List Ev
  | 0, _, _, _, st => (st, [])
  | fuel + 1, getStatus, getHash, t, st =>
    let status := getStatus t
    if status = 0 then
      let st' := { st with statusChecks := st.statusChecks + 1 }
      if st'.statusChecks < max_status_checks then
        checkSeed fuel getStatus getHash (t + 1) st'
      else (st', [])
    else if status = 1 then
      (st, [.raceinfo (load_seed_hash_info getHash st.seedId)])
    else if 2 ≤ status then
      ({ st with seedId := none }, [.msg seed_failed_msg])
    else (st, [])

/-- `RandoHandler.check_seed_status` from the session's current counter. -/
def check_seed_status (getStatus : Nat → Int) (getHash : Option String → Option String)
    (t : Nat) (st : SessionState) : SessionState × List Ev :=
  checkSeed (max_status_checks - st.statusChecks + 1) getStatus getHash t st

/-! ## Lemmas on the polling loop -/

/-- The polling loop never drives the counter past the ceiling: from a
counter below `max_status_checks`, the final counter is at most
`max_status_checks`. -/
theorem checkSeed_bound (fuel : Nat) : ∀ (gs : Nat → Int)
    (gh : Option String → Option String) (t : Nat) (st : SessionState),
    st.statusChecks < max_status_checks →
    (checkSeed fuel gs gh t st).1.statusChecks ≤ max_status_checks := by
  induction fuel with
  | zero =>
    intro gs gh t st h
    simpa [checkSeed] using le_of_lt h
  | succ n ih =>
    intro gs gh t st h
    by_cases h0 : gs t = 0
    · by_cases h1 : st.statusChecks + 1 < max_status_checks
      · simpa [checkSeed, h0, h1] using ih gs gh (t + 1) _ (by simpa using h1)
      · simp only [checkSeed, h0, h1]
        simp
        omega
    · by_cases h1 : gs t = 1
      · simp [checkSeed, h0, h1]
        omega
      · by_cases h2 : 2 ≤ gs t
        · simp [checkSeed, h0, h1, h2]
          omega
        · simp [checkSeed, h0, h1, h2]
          omega

/-- With `get_status` answering 0 on every poll, the loop runs the counter
from below the ceiling exactly up to the ceiling, emits nothing, and leaves
every other session field unchanged. -/
theorem checkSeed_allzero (fuel : Nat) : ∀ (gs : Nat → Int)
    (gh : Option String → Option String), (∀ i, gs i = 0) → ∀ (t : Nat) (st : SessionState),
    st.statusChecks < max_status_checks →
    max_status_checks - st.statusChecks ≤ fuel →
    checkSeed fuel gs gh t st = ({st with statusChecks := max_status_checks}, []) := by
  induction fuel with
  | zero =>
    intro gs gh hz t st h1 h2
    exfalso
    simp only [max_status_checks] at h1 h2
    omega
  | succ n ih =>
    intro gs gh hz t st h1 h2
    by_cases hlt : st.statusChecks + 1 < max_status_checks
    · rw [show checkSeed (n + 1) gs gh t st
          = checkSeed n gs gh (t + 1) { st with statusChecks := st.statusChecks + 1 } from by
        simp [checkSeed, hz t, hlt]]
      rw [ih gs gh hz (t + 1) _ (by simpa using hlt)
        (by simp only [max_status_checks] at *; omega)]
    · have heq : st.statusChecks + 1 = max_status_checks := by
        simp only [max_status_checks] at *; omega
      simp [checkSeed, hz t, hlt, heq]

/-! ## Claim theorems -/

/-- C1: the poll counter `status_checks` never exceeds `max_status_checks`
(50); and when `get_status` answers 0 on every consecutive poll starting
from a freshly rolled seed (counter 0), `check_seed_status` stops
rescheduling itself at the ceiling without sending any message or race-info
update and without clearing `seed_id` (the session is unchanged apart from
the counter reaching 50). -/
theorem C1_status_checks_ceiling :
    (∀ (gs : Nat → Int) (gh : Option String → Option String) (t : Nat) (st : SessionState),
      st.statusChecks < max_status_checks →
      (check_seed_status gs gh t st).1.statusChecks ≤ max_status_checks)
    ∧ (∀ (gs : Nat → Int) (gh : Option String → Option String) (t : Nat) (st : SessionState),
      (∀ i, gs i = 0) → st.statusChecks = 0 →
      check_seed_status gs gh t st = ({st with statusChecks := max_status_checks}, [])) := by
  constructor
  · intro gs gh t st h
    exact checkSeed_bound _ gs gh t st h
  · intro gs gh t st hz hc
    exact checkSeed_allzero _ gs gh hz t st (by rw [hc]; simp [max_status_checks])
      (by omega)

/-- C1 witness: a session with a rolled seed and all-zero statuses stops at
counter 50 with no output and `seed_id` still set. -/
theorem C1_status_checks_ceiling_witness :
    (check_seed_status (fun _ => 0) (fun _ => none) 0 ⟨false, false, some "seed", 0⟩).1.statusChecks
      ≤ max_status_checks
    ∧ check_seed_status (fun _ => 0) (fun _ => none) 0 ⟨false, false, some "seed", 0⟩
      = ({ SessionState.mk false false (some "seed") 0 with statusChecks := max_status_checks }, []) :=
  ⟨C1_status_checks_ceiling.1 _ _ 0 _ (by decide),
   C1_status_checks_ceiling.2 _ _ 0 _ (fun _ => rfl) rfl⟩

/-- C3: a status of 2 or more clears the session's `seed_id` and sends the
failure message telling the room to retry with `!seed`; a status of 1
publishes the fetched hash together with the seed's public URL as the race
info string and leaves `seed_id` set. -/
theorem C3_terminal_statuses (gs : Nat → Int) (gh : Option String → Option String)
    (t : Nat) (st : SessionState) :
    (2 ≤ gs t → check_seed_status gs gh t st
      = ({st with seedId := none}, [Ev.msg seed_failed_msg]))
    ∧ (gs t = 1 → check_seed_status gs gh t st
      = (st, [Ev.raceinfo (pyStr (gh st.seedId) ++ "\n" ++ seed_url_of st.seedId)])) := by
  constructor
  · intro h2
    have h0 : ¬ gs t = 0 := by omega
    have h1 : ¬ gs t = 1 := by omega
    simp [check_seed_status, checkSeed, h0, h1, h2]
  · intro h1
    have h0 : ¬ gs t = 0 := by omega
    simp [check_seed_status, checkSeed, h0, h1, load_seed_hash_info]

/-- C3 witness: a failed status clears the seed and posts the retry message;
a ready status publishes hash and URL with the seed id intact. -/
theorem C3_terminal_statuses_witness :
    check_seed_status (fun _ => 2) (fun _ => none) 0 ⟨false, false, some "abc", 0⟩
      = (⟨false, false, none, 0⟩, [Ev.msg seed_failed_msg])
    ∧ check_seed_status (fun _ => 1) (fun _ => some "Bow Saw") 0 ⟨false, false, some "abc", 0⟩
      = (⟨false, false, some "abc", 0⟩,
        [Ev.raceinfo (pyStr (some "Bow Saw") ++ "\n" ++ seed_url_of (some "abc"))]) :=
  ⟨(C3_terminal_statuses (fun _ => 2) (fun _ => none) 0 ⟨false, false, some "abc", 0⟩).1 (by decide),
   (C3_terminal_statuses (fun _ => 1) (fun _ => some "Bow Saw") 0 ⟨false, false, some "abc", 0⟩).2 rfl⟩

/-- C5 counterexample: at status -1 (neither 0, nor 1, nor at least 2) the
loop silently stops — no message, no race-info update, `seed_id` untouched —
instead of producing the failure handling the claim requires. -/
theorem C5_counterexample :
    check_seed_status (fun _ => -1) (fun _ => none) 0 ⟨false, false, some "abc", 0⟩
      = (⟨false, false, some "abc", 0⟩, [])
    ∧ check_seed_status (fun _ => -1) (fun _ => none) 0 ⟨false, false, some "abc", 0⟩
      ≠ (⟨false, false, none, 0⟩, [Ev.msg seed_failed_msg]) :=
  ⟨rfl, by decide⟩

/-- C5 amended: a status value that is neither 0, nor 1, nor at least 2
(i.e. a negative status) is silently ignored by `check_seed_status`: polling
stops with no message sent, no race-info update, and the session state —
`seed_id` included — unchanged. -/
theorem C5_status_ignored (gs : Nat → Int) (gh : Option String → Option String)
    (t : Nat) (st : SessionState)
    (h0 : gs t ≠ 0) (h1 : gs t ≠ 1) (h2 : ¬ 2 ≤ gs t) :
    check_seed_status gs gh t st = (st, []) := by
  simp [check_seed_status, checkSeed, h0, h1, h2]

/-- C5 amended witness: the silent stop at status -1. -/
theorem C5_status_ignored_witness :
    check_seed_status (fun _ => -1) (fun _ => some "H") 0 ⟨false, false, some "xyz", 3⟩
      = (⟨false, false, some "xyz", 3⟩, []) :=
  C5_status_ignored (fun _ => -1) (fun _ => some "H") 0 ⟨false, false, some "xyz", 3⟩
    (by decide) (by decide) (by decide)

/-- C2: pre-race seed commands (`!seed`, `!seeddev`, `!spoilerseed` all run
`roll_and_send` with their encryption and dev flags): on a locked session a
requester who is not a monitor gets the locked-rejection message and the
session state — `seed_id` included — is returned unchanged with no roll
performed; past the locked check, a truthy `seed_id` with a requester who
cannot moderate gets the already-rolled rejection, again with the state
unchanged and no roll; a requester who can moderate passes both checks and
proceeds to roll a new seed with the requested preset. -/
theorem C2_roll_and_send_gating (st : SessionState) (args : List String)
    (message : ChatMessage) (encrypt dev : Bool) :
    (st.locked = true → canMonitor message = false →
      roll_and_send st args message encrypt dev = (st, [locked_msg (replyTo message)], none))
    ∧ ((st.locked = true → canMonitor message = true) → pyTruthy st.seedId = true →
      canModerate message = false →
      roll_and_send st args message encrypt dev = (st, [already_rolled_msg], none))
    ∧ (canModerate message = true →
      roll_and_send st args message encrypt dev
        = (st, [], some ⟨args.headD "weekly", encrypt, dev, replyTo message⟩)) := by
  refine ⟨?_, ?_, ?_⟩
  · intro hl hm
    simp [roll_and_send, hl, hm]
  · intro hlm hs hmod
    by_cases hl : st.locked
    · simp [roll_and_send, hl, hlm hl, hs, hmod]
    · simp [roll_and_send, hl, hs, hmod]
  · intro hmod
    have hmon : canMonitor message = true := by
      simp only [canMonitor]
      simp only [canModerate] at hmod
      simp [hmod]
    simp [roll_and_send, hmon, hmod]

/-- C2 witness: the three behaviours at concrete sessions — a locked
rejection for a plain user, the already-rolled rejection for a plain user on
a rolled session, and a moderator passing both checks. -/
theorem C2_roll_and_send_gating_witness :
    roll_and_send ⟨true, false, none, 0⟩ [] ⟨some ⟨some "alice"⟩, false, false⟩ true false
      = (⟨true, false, none, 0⟩, [locked_msg (some "alice")], none)
    ∧ roll_and_send ⟨false, false, some "xyz", 0⟩ [] ⟨some ⟨some "bob"⟩, false, false⟩ true true
      = (⟨false, false, some "xyz", 0⟩, [already_rolled_msg], none)
    ∧ roll_and_send ⟨true, false, some "xyz", 0⟩ ["s7"] ⟨some ⟨some "carol"⟩, true, false⟩ false false
      = (⟨true, false, some "xyz", 0⟩, [], some ⟨"s7", false, false, some "carol"⟩) :=
  ⟨(C2_roll_and_send_gating ⟨true, false, none, 0⟩ [] ⟨some ⟨some "alice"⟩, false, false⟩
      true false).1 rfl rfl,
   (C2_roll_and_send_gating ⟨false, false, some "xyz", 0⟩ [] ⟨some ⟨some "bob"⟩, false, false⟩
      true true).2.1 (by decide) rfl rfl,
   (C2_roll_and_send_gating ⟨true, false, some "xyz", 0⟩ ["s7"] ⟨some ⟨some "carol"⟩, true, false⟩
      false false).2.2 rfl⟩

/-- C4: `roll_seed` query parameters — the API key is always present;
`encrypt=true` exactly for an encrypted stable-branch seed; `locked=true`
exactly for an encrypted dev-branch seed; `passwordLock=true` exactly when a
password is requested; and `version=<target_name>_<version>` for dev-branch
requests only, never for stable ones. -/
theorem C4_roll_seed_params (key branch : String) (encrypt password : Bool)
    (latest : String) (ps : List (String × String))
    (h : roll_seed_params key branch encrypt password latest = some ps) :
    ps.lookup "key" = some key
    ∧ (hasParam ps "encrypt" = true ↔ (encrypt = true ∧ branch = "stable"))
    ∧ (hasParam ps "locked" = true ↔ (encrypt = true ∧ branch ≠ "stable"))
    ∧ (hasParam ps "passwordLock" = true ↔ password = true)
    ∧ (branch ≠ "stable" → ∃ bi, randomizer_branches.lookup branch = some bi
        ∧ ps.lookup "version" = some (bi.target_name ++ "_" ++ latest))
    ∧ (branch = "stable" → hasParam ps "version" = false) := by
  by_cases hb : branch = "stable"
  · subst hb
    simp only [roll_seed_params] at h
    simp only [bne_self_eq_false] at h
    cases encrypt <;> cases password <;>
      (simp_all [hasParam, List.lookup]
       subst h
       simp [hasParam, List.lookup] <;> aesop)
  · have hbe : (branch == "stable") = false := beq_eq_false_iff_ne.mpr hb
    simp only [roll_seed_params, bne, hbe, Bool.not_false, if_true] at h
    cases hl : randomizer_branches.lookup branch with
    | none => rw [hl] at h; exact absurd h (by simp)
    | some bi =>
      rw [hl] at h
      cases encrypt <;> cases password <;>
        (simp_all [hasParam, List.lookup]
         subst h
         simp [hasParam, List.lookup])

/-- C4 witness: an encrypted dev-branch request carries the key, the
`locked` flag and the composed version parameter, and no `encrypt` flag. -/
theorem C4_roll_seed_params_witness :
    [("key", "k1"), ("locked", "true"), ("version", "dev_8.2")].lookup "key" = some "k1"
    ∧ (hasParam [("key", "k1"), ("locked", "true"), ("version", "dev_8.2")] "encrypt" = true
        ↔ (true = true ∧ "dev" = "stable"))
    ∧ (hasParam [("key", "k1"), ("locked", "true"), ("version", "dev_8.2")] "locked" = true
        ↔ (true = true ∧ "dev" ≠ "stable"))
    ∧ (hasParam [("key", "k1"), ("locked", "true"), ("version", "dev_8.2")] "passwordLock" = true
        ↔ false = true)
    ∧ ("dev" ≠ "stable" → ∃ bi, randomizer_branches.lookup "dev" = some bi
        ∧ [("key", "k1"), ("locked", "true"), ("version", "dev_8.2")].lookup "version"
          = some (bi.target_name ++ "_" ++ "8.2"))
    ∧ ("dev" = "stable" →
        hasParam [("key", "k1"), ("locked", "true"), ("version", "dev_8.2")] "version" = false) :=
  C4_roll_seed_params "k1" "dev" true false "8.2"
    [("key", "k1"), ("locked", "true"), ("version", "dev_8.2")] (by decide)

/-- C6 counterexample: with the `settingsLog` field missing, `get_hash` does
not return `None` — `json.loads(None)` raises an uncaught `TypeError`
(`except ValueError` does not catch it). -/
theorem C6_counterexample :
    get_hash (fun _ => SettingsParse.valueError) none = GetHashOutcome.typeError
    ∧ get_hash (fun _ => SettingsParse.valueError) none ≠ GetHashOutcome.noneVal :=
  ⟨rfl, by decide⟩

/-- C6 amended: `get_hash` returns `None` when `settingsLog` is present but
not parseable JSON (a soft failure); a missing `settingsLog` instead raises
an uncaught `TypeError`; on successful parsing it returns the file-hash icon
names each mapped through `hash_map` (names absent from the table passing
through unchanged), joined with single spaces. -/
theorem C6_get_hash_soft_failure (parse : String → SettingsParse) :
    get_hash parse none = GetHashOutcome.typeError
    ∧ (∀ s, parse s = SettingsParse.valueError →
        get_hash parse (some s) = GetHashOutcome.noneVal)
    ∧ (∀ s items, parse s = SettingsParse.parsed (some items) →
        get_hash parse (some s)
          = GetHashOutcome.value
            (String.intercalate " " (items.map fun i => (hash_map.lookup i).getD i)))
    ∧ get_hash
        (fun _ => SettingsParse.parsed
          (some ["Beans", "Frog", "Megaton Hammer", "SOLD OUT", "Mystery Icon"]))
        (some "log")
      = GetHashOutcome.value "HashBeans HashFrog HashHammer HashSoldOut Mystery Icon" := by
  refine ⟨rfl, ?_, ?_, rfl⟩
  · intro s hs
    simp [get_hash, hs]
  · intro s items hs
    simp [get_hash, hs]

/-- C6 amended witness: an unparsable settings log yields `None`. -/
theorem C6_get_hash_soft_failure_witness :
    get_hash (fun _ => SettingsParse.valueError) (some "notjson") = GetHashOutcome.noneVal :=
  (C6_get_hash_soft_failure (fun _ => SettingsParse.valueError)).2.1 "notjson" rfl

/-- C7: the handler passes its boolean `dev` flag as `roll_seed`'s `branch`
argument, so the seed client's lookup chain always fails with a `KeyError`
(for either boolean, `branch != 'stable'` is true and
`randomizer_branches[branch]` has no boolean key): the settings lookup the
claim asserts to succeed is never reached, even though the handler's own
validation accepts e.g. the preset string `"stable"` against the branch-keyed
`zsr.presets` dict. -/
theorem C7_roll_seed_lookup_unreachable :
    (∀ (α : Type) (presets : List (PyKey × List (String × α))) (b : Bool) (preset : String),
      roll_seed_lookup presets (PyKey.pbool b) preset
        = Except.error RollSeedErr.branchKeyError)
    ∧ handler_preset_known (zsr_init_presets fun _ => [("weekly", 0)]) "stable" = true
    ∧ roll_seed_lookup (zsr_init_presets fun _ => [("weekly", 0)]) (PyKey.pbool false) "stable"
      = Except.error RollSeedErr.branchKeyError := by
  refine ⟨?_, rfl, rfl⟩
  intro α presets b preset
  rfl

/-! ## Lemmas on catalog loading -/

/-- The fold inside `pyMinByLen` returns either its accumulator or a list
element, of length at most that of the accumulator and of every element. -/
theorem foldl_min_spec (xs : List String) : ∀ acc : String,
    ((xs.foldl (fun acc a => if a.length < acc.length then a else acc) acc) ∈ acc :: xs)
    ∧ ∀ a ∈ acc :: xs,
      (xs.foldl (fun acc a => if a.length < acc.length then a else acc) acc).length
        ≤ a.length := by
  induction xs with
  | nil =>
    intro acc
    constructor
    · exact List.mem_cons_self acc []
    · intro a ha
      rcases List.mem_cons.mp ha with h' | h'
      · rw [h']
        simp
      · exact absurd h' (List.not_mem_nil a)
  | cons x xs ih =>
    intro acc
    rw [List.foldl_cons]
    by_cases h : x.length < acc.length
    · rw [if_pos h]
      obtain ⟨hmem, hall⟩ := ih x
      constructor
      · rcases List.mem_cons.mp hmem with h' | h'
        · rw [h']
          exact List.mem_cons_of_mem acc (List.mem_cons_self x xs)
        · exact List.mem_cons_of_mem acc (List.mem_cons_of_mem x h')
      · intro a ha
        rcases List.mem_cons.mp ha with h' | h'
        · rw [h']
          exact le_trans (hall x (List.mem_cons_self x xs)) (le_of_lt h)
        · exact hall a h'
    · rw [if_neg h]
      obtain ⟨hmem, hall⟩ := ih acc
      constructor
      · rcases List.mem_cons.mp hmem with h' | h'
        · rw [h']
          exact List.mem_cons_self acc (x :: xs)
        · exact List.mem_cons_of_mem acc (List.mem_cons_of_mem x h')
      · intro a ha
        rcases List.mem_cons.mp ha with h' | h'
        · rw [h']
          exact hall acc (List.mem_cons_self acc xs)
        · rcases List.mem_cons.mp h' with h'' | h''
          · rw [h'']
            exact le_trans (hall acc (List.mem_cons_self acc xs)) (le_of_not_lt h)
          · exact hall a (List.mem_cons_of_mem acc h'')

/-- `min(aliases, key=len)` on a non-empty list returns a member of minimal
length (the first such member, hence deterministic). -/
theorem pyMinByLen_spec (x : String) (xs : List String) (k : String)
    (h : pyMinByLen (x :: xs) = some k) :
    k ∈ x :: xs ∧ ∀ a ∈ x :: xs, k.length ≤ a.length := by
  simp only [pyMinByLen, Option.some.injEq] at h
  subst h
  exact foldl_min_spec xs x

/-- A dict assignment only adds the assigned pair or keeps existing
elements. -/
theorem dictInsert_mem {β : Type} (k : String) (v : β) :
    ∀ (l : List (String × β)) (p : String × β),
    p ∈ dictInsert k v l → p = (k, v) ∨ p ∈ l := by
  intro l
  induction l with
  | nil =>
    intro p hp
    exact Or.inl (by simpa [dictInsert] using hp)
  | cons q rest ih =>
    obtain ⟨k', v'⟩ := q
    intro p hp
    by_cases hk : k' = k
    · simp only [dictInsert] at hp
      rw [if_pos hk] at hp
      rcases List.mem_cons.mp hp with h | h
      · exact Or.inl h
      · exact Or.inr (List.mem_cons_of_mem _ h)
    · simp only [dictInsert] at hp
      rw [if_neg hk] at hp
      rcases List.mem_cons.mp hp with h | h
      · exact Or.inr (by rw [h]; exact List.mem_cons_self _ _)
      · rcases ih p h with h' | h'
        · exact Or.inl h'
        · exact Or.inr (List.mem_cons_of_mem _ h')

/-- The assigned pair is in the dict after assignment. -/
theorem dictInsert_mem_self {β : Type} (k : String) (v : β) :
    ∀ l : List (String × β), (k, v) ∈ dictInsert k v l := by
  intro l
  induction l with
  | nil => simp [dictInsert]
  | cons q rest ih =>
    obtain ⟨k', v'⟩ := q
    by_cases hk : k' = k
    · simp only [dictInsert]
      rw [if_pos hk]
      exact List.mem_cons_self _ _
    · simp only [dictInsert]
      rw [if_neg hk]
      exact List.mem_cons_of_mem _ ih

/-- Assigning a different key preserves an existing pair. -/
theorem dictInsert_mem_of_ne {β : Type} (k k' : String) (v' : β) (hne : k ≠ k') :
    ∀ (l : List (String × β)) (v : β), (k, v) ∈ l → (k, v) ∈ dictInsert k' v' l := by
  intro l
  induction l with
  | nil =>
    intro v hv
    exact absurd hv (List.not_mem_nil _)
  | cons q rest ih =>
    obtain ⟨a, b⟩ := q
    intro v hv
    by_cases ha : a = k'
    · simp only [dictInsert]
      rw [if_pos ha]
      rcases List.mem_cons.mp hv with h | h
      · exact absurd ((congrArg Prod.fst h).trans ha) hne
      · exact List.mem_cons_of_mem _ h
    · simp only [dictInsert]
      rw [if_neg ha]
      rcases List.mem_cons.mp hv with h | h
      · rw [h]
        exact List.mem_cons_self _ _
      · exact List.mem_cons_of_mem _ (ih v h)

/-- Once a key is in the accumulator, it stays in the finished catalog
(later assignments may change its value, never remove it). -/
theorem go_preserves_key {α : Type} :
    ∀ (settings : List (String × PresetEntry α))
      (acc res : List (String × PresetInfo α)) (k : String),
    load_presets_go settings acc = Except.ok res →
    (∃ info, (k, info) ∈ acc) → ∃ info, (k, info) ∈ res := by
  intro settings
  induction settings with
  | nil =>
    intro acc res k h hk
    simp only [load_presets_go, Except.ok.injEq] at h
    subst h
    exact hk
  | cons hd rest ih =>
    intro acc res k h hk
    obtain ⟨n0, e0⟩ := hd
    simp only [load_presets_go] at h
    split at h
    · exact ih acc res k h hk
    · split at h
      · exact absurd h (by simp)
      · rename_i k0 hk0
        obtain ⟨v, hv⟩ := hk
        by_cases hkk : k = k0
        · subst hkk
          exact ih _ res k h ⟨_, dictInsert_mem_self k _ acc⟩
        · exact ih _ res k h ⟨v, dictInsert_mem_of_ne k k0 _ hkk acc v hv⟩

/-- Every pair of the finished catalog is either inherited from the
accumulator or records a settings entry that declared aliases, keyed by that
entry's shortest alias. -/
theorem go_sound {α : Type} :
    ∀ (settings : List (String × PresetEntry α))
      (acc res : List (String × PresetInfo α)),
    load_presets_go settings acc = Except.ok res →
    ∀ p ∈ res, p ∈ acc
      ∨ ∃ als, (p.2.full_name, p.2.settings) ∈ settings
          ∧ p.2.settings.aliases = some als ∧ pyMinByLen als = some p.1 := by
  intro settings
  induction settings with
  | nil =>
    intro acc res h p hp
    simp only [load_presets_go, Except.ok.injEq] at h
    subst h
    exact Or.inl hp
  | cons hd rest ih =>
    intro acc res h p hp
    obtain ⟨n0, e0⟩ := hd
    simp only [load_presets_go] at h
    split at h
    · rcases ih acc res h p hp with h' | ⟨als, hm, ha, hmin⟩
      · exact Or.inl h'
      · exact Or.inr ⟨als, List.mem_cons_of_mem _ hm, ha, hmin⟩
    · rename_i als0 heq
      split at h
      · exact absurd h (by simp)
      · rename_i k0 hk0
        rcases ih _ res h p hp with h' | ⟨als, hm, ha, hmin⟩
        · rcases dictInsert_mem k0 ⟨n0, e0⟩ acc p h' with h'' | h''
          · subst h''
            exact Or.inr ⟨als0, List.mem_cons_self _ _, heq, hk0⟩
          · exact Or.inl h''
        · exact Or.inr ⟨als, List.mem_cons_of_mem _ hm, ha, hmin⟩

/-- Every settings entry declaring aliases has a well-defined shortest alias
whose key appears in the finished catalog. -/
theorem go_registers {α : Type} :
    ∀ (settings : List (String × PresetEntry α))
      (acc res : List (String × PresetInfo α))
      (name : String) (e : PresetEntry α) (als : List String),
    load_presets_go settings acc = Except.ok res →
    (name, e) ∈ settings → e.aliases = some als →
    ∃ k, pyMinByLen als = some k ∧ ∃ info, (k, info) ∈ res := by
  intro settings
  induction settings with
  | nil =>
    intro acc res name e als h hmem
    exact absurd hmem (List.not_mem_nil _)
  | cons hd rest ih =>
    intro acc res name e als h hmem hals
    obtain ⟨n0, e0⟩ := hd
    simp only [load_presets_go] at h
    split at h
    · rename_i heq
      rcases List.mem_cons.mp hmem with h0 | h0
      · have hee : e = e0 := congrArg Prod.snd h0
        rw [hee, heq] at hals
        exact absurd hals (by simp)
      · exact ih acc res name e als h h0 hals
    · rename_i als0 heq
      split at h
      · exact absurd h (by simp)
      · rename_i k0 hk0
        rcases List.mem_cons.mp hmem with h0 | h0
        · have hee : e = e0 := congrArg Prod.snd h0
          rw [hee, heq] at hals
          have hals0 : als0 = als := by injection hals with h1
          subst hals0
          exact ⟨k0, hk0,
            go_preserves_key rest _ res k0 h ⟨_, dictInsert_mem_self k0 _ acc⟩⟩
        · exact ih _ res name e als h h0 hals

/-- C8 counterexample: two presets sharing the shortest alias `"x"` — the
dict comprehension's duplicate-key overwrite keeps only the later entry, so
the earlier alias-declaring entry `"A"` is not registered in the catalog at
all, refuting the claim that every alias-declaring entry is registered. -/
theorem C8_counterexample :
    load_presets [("A", PresetEntry.mk (some ["x"]) (0 : Nat)),
        ("B", PresetEntry.mk (some ["x"]) 1)]
      = Except.ok [("x", PresetInfo.mk "B" (PresetEntry.mk (some ["x"]) 1))]
    ∧ ∀ k, (k, PresetInfo.mk "A" (PresetEntry.mk (some ["x"]) (0 : Nat)))
        ∉ [("x", PresetInfo.mk "B" (PresetEntry.mk (some ["x"]) 1))] := by
  refine ⟨rfl, ?_⟩
  intro k hk
  simp [PresetInfo.mk.injEq, PresetEntry.mk.injEq] at hk

/-- C8 amended: `load_presets` keys each alias-declaring entry by its
shortest alias (the first minimal-length alias, hence deterministic), with
Python dict duplicate-key semantics on collisions: the catalog always
contains the shortest-alias key of every alias-declaring entry, and the
entry itself is registered under it whenever no other settings entry shares
that shortest alias (otherwise the last such entry wins); entries with no
`aliases` field are omitted; for a preset with aliases
`["trio", "tournamentreadyincrediblyoptimized"]` the chosen key is
`"trio"`. -/
theorem C8_load_presets_shortest :
    (∀ (α : Type) (settings : List (String × PresetEntry α))
        (res : List (String × PresetInfo α)),
      load_presets settings = Except.ok res →
      ∀ (name : String) (e : PresetEntry α), (name, e) ∈ settings →
        (∀ als, e.aliases = some als →
          ∃ k, pyMinByLen als = some k ∧ k ∈ als ∧ (∀ a ∈ als, k.length ≤ a.length)
            ∧ (∃ info, (k, info) ∈ res)
            ∧ ((∀ (name' : String) (e' : PresetEntry α) (als' : List String),
                  (name', e') ∈ settings → e'.aliases = some als' →
                  pyMinByLen als' = some k → name' = name ∧ e' = e) →
                (k, PresetInfo.mk name e) ∈ res))
        ∧ (e.aliases = none → ∀ k, (k, PresetInfo.mk name e) ∉ res))
    ∧ load_presets
        [("Tournament", PresetEntry.mk (some ["trio", "tournamentreadyincrediblyoptimized"]) (0 : Nat))]
      = Except.ok
        [("trio", PresetInfo.mk "Tournament"
          (PresetEntry.mk (some ["trio", "tournamentreadyincrediblyoptimized"]) 0))] := by
  refine ⟨?_, rfl⟩
  intro α settings res h name e hmem
  constructor
  · intro als hals
    obtain ⟨k, hkmin, hkey⟩ := go_registers settings [] res name e als h hmem hals
    have hspec : k ∈ als ∧ ∀ a ∈ als, k.length ≤ a.length := by
      cases als with
      | nil => exact absurd hkmin (by simp [pyMinByLen])
      | cons a0 arest => exact pyMinByLen_spec a0 arest k hkmin
    refine ⟨k, hkmin, hspec.1, hspec.2, hkey, ?_⟩
    intro huniq
    obtain ⟨info, hinfo⟩ := hkey
    rcases go_sound settings [] res h (k, info) hinfo with h' | ⟨als', hm', ha', hmin'⟩
    · exact absurd h' (List.not_mem_nil _)
    · obtain ⟨hn, he⟩ := huniq info.full_name info.settings als' hm' ha' hmin'
      have hinfo_eq : PresetInfo.mk name e = info := by
        cases info with
        | mk fn s =>
          have hn' : fn = name := hn
          have he' : s = e := he
          rw [hn', he']
      rw [hinfo_eq]
      exact hinfo
  · intro hnone k hk
    rcases go_sound settings [] res h (k, PresetInfo.mk name e) hk
        with h' | ⟨als, hm, ha, hmin⟩
    · exact absurd h' (List.not_mem_nil _)
    · have ha' : e.aliases = some als := ha
      rw [hnone] at ha'
      exact absurd ha' (by simp)

/-- C8 witness: the concrete single-entry catalog — key present, a shortest
alias, and (the shortest alias being unique) the entry itself registered. -/
theorem C8_load_presets_shortest_witness :
    ∃ k, pyMinByLen ["trio", "tournamentreadyincrediblyoptimized"] = some k
      ∧ k ∈ ["trio", "tournamentreadyincrediblyoptimized"]
      ∧ (∀ a ∈ ["trio", "tournamentreadyincrediblyoptimized"], k.length ≤ a.length)
      ∧ (∃ info, (k, info) ∈ [("trio", PresetInfo.mk "Tournament"
          (PresetEntry.mk (some ["trio", "tournamentreadyincrediblyoptimized"]) (0 : Nat)))])
      ∧ ((∀ (name' : String) (e' : PresetEntry Nat) (als' : List String),
            (name', e')
              ∈ [("Tournament", PresetEntry.mk (some ["trio", "tournamentreadyincrediblyoptimized"]) (0 : Nat))]
            → e'.aliases = some als' → pyMinByLen als' = some k →
            name' = "Tournament"
              ∧ e' = PresetEntry.mk (some ["trio", "tournamentreadyincrediblyoptimized"]) 0) →
          (k, PresetInfo.mk "Tournament"
            (PresetEntry.mk (some ["trio", "tournamentreadyincrediblyoptimized"]) 0))
            ∈ [("trio", PresetInfo.mk "Tournament"
              (PresetEntry.mk (some ["trio", "tournamentreadyincrediblyoptimized"]) 0))]) :=
  (C8_load_presets_shortest.1 Nat
    [("Tournament", PresetEntry.mk (some ["trio", "tournamentreadyincrediblyoptimized"]) 0)]
    [("trio", PresetInfo.mk "Tournament"
      (PresetEntry.mk (some ["trio", "tournamentreadyincrediblyoptimized"]) 0))]
    rfl "Tournament"
    (PresetEntry.mk (some ["trio", "tournamentreadyincrediblyoptimized"]) 0)
    (List.mem_singleton.mpr rfl)).1 _ rfl

/-- C9 counterexample: `["1h30m"]` is accepted by `parse_duration` (90
minutes), `format_duration` renders the required "1 hour and 30 minutes",
but re-parsing the rendered string's tokens fails with a `FormatError` (the
token `"hour"` has no leading number) instead of yielding an equal
duration. -/
theorem C9_counterexample :
    parse_duration ["1h30m"] DUnit.minutes = Except.ok 5400
    ∧ format_duration 5400 = "1 hour and 30 minutes"
    ∧ parse_duration (tokensOf (format_duration 5400)) DUnit.minutes
      = Except.error FormatErr.noLeadingNumber :=
  ⟨rfl, rfl, rfl⟩

/-- C9 amended: formatting the duration parsed from the canonical forms
reproduces the natural-language renderings ("1h30m" gives "1 hour and 30
minutes"), but `format_duration` output is not re-parseable: its unit words
contain no leading number, so re-parsing the formatted string's tokens fails
with a `FormatError` rather than yielding an equal duration. -/
theorem C9_format_not_reparseable :
    (parse_duration ["1h30m"] DUnit.minutes = Except.ok 5400
      ∧ format_duration 5400 = "1 hour and 30 minutes"
      ∧ parse_duration (tokensOf (format_duration 5400)) DUnit.minutes
        = Except.error FormatErr.noLeadingNumber)
    ∧ (parse_duration ["90s"] DUnit.minutes = Except.ok 90
      ∧ format_duration 90 = "1 minute and 30.0 seconds"
      ∧ parse_duration (tokensOf (format_duration 90)) DUnit.minutes
        = Except.error FormatErr.noLeadingNumber)
    ∧ (parse_duration ["2:00"] DUnit.minutes = Except.ok 120
      ∧ format_duration 120 = "2 minutes"
      ∧ parse_duration (tokensOf (format_duration 120)) DUnit.minutes
        = Except.error FormatErr.noLeadingNumber) :=
  ⟨⟨rfl, rfl, rfl⟩, ⟨rfl, rfl, rfl⟩, ⟨rfl, rfl, rfl⟩⟩

/-! ## Lemmas on the duration scanner -/

/-- Scanning a token succeeds exactly when every scanning point has a
parseable leading number, for any fuel and default unit. -/
theorem scanTok_ok_iff (fuel : Nat) : ∀ (cs : List Char) (d : DUnit),
    (∃ p, scanTok fuel cs d = Except.ok p) ↔ tokenOkF fuel cs = true := by
  induction fuel with
  | zero =>
    intro cs d
    cases cs <;> simp [scanTok, tokenOkF]
  | succ n ih =>
    intro cs d
    cases cs with
    | nil => simp [scanTok, tokenOkF]
    | cons c rest =>
      by_cases hd : c.isDigit
      · rw [show tokenOkF (n + 1) (c :: rest)
            = tokenOkF n (stripUnitChar (rest.dropWhile Char.isDigit)) from by
          simp [tokenOkF, hd]]
        rw [← ih (stripUnitChar (rest.dropWhile Char.isDigit))
          (unitOf (rest.dropWhile Char.isDigit).head? d).decay]
        cases hrec : scanTok n (stripUnitChar (rest.dropWhile Char.isDigit))
            (unitOf (rest.dropWhile Char.isDigit).head? d).decay with
        | ok p => simp [scanTok, hd, hrec]
        | error e => simp [scanTok, hd, hrec]
      · simp [scanTok, tokenOkF, hd]

/-- The token loop of `parse_duration` succeeds exactly when every token
scans. -/
theorem goTokens_ok_iff : ∀ (args : List String) (d : DUnit),
    (∃ n, goTokens args d = Except.ok n)
      ↔ ∀ a ∈ args, tokenOk (pyLowerChars a) = true := by
  intro args
  induction args with
  | nil => intro d; simp [goTokens]
  | cons a rest ih =>
    intro d
    cases hs : scanToken (pyLowerChars a) d with
    | error e =>
      have hna : ¬ tokenOk (pyLowerChars a) = true := by
        rw [tokenOk, ← scanTok_ok_iff ((pyLowerChars a).length) (pyLowerChars a) d]
        rintro ⟨p, hp⟩
        rw [show scanTok (pyLowerChars a).length (pyLowerChars a) d
            = scanToken (pyLowerChars a) d from rfl, hs] at hp
        exact absurd hp (by simp)
      simp [goTokens, hs, hna]
    | ok p =>
      obtain ⟨v, d2⟩ := p
      have ha : tokenOk (pyLowerChars a) = true := by
        rw [tokenOk, ← scanTok_ok_iff ((pyLowerChars a).length) (pyLowerChars a) d]
        exact ⟨(v, d2), hs⟩
      rw [show (∀ x ∈ a :: rest, tokenOk (pyLowerChars x) = true)
          ↔ (tokenOk (pyLowerChars a) = true ∧ ∀ x ∈ rest, tokenOk (pyLowerChars x) = true)
          from by simp]
      rw [← ih d2]
      cases hr : goTokens rest d2 with
      | ok w => simp [goTokens, hs, hr, ha]
      | error e => simp [goTokens, hs, hr, ha]

/-- C10: `parse_duration` fails exactly when the token list is empty or some
token, at a point of scanning, has no parseable leading number; in
particular the empty list fails with the empty-args error and `["abc"]`
fails with the no-leading-number error. -/
theorem C10_parse_duration_failure :
    (∀ d, parse_duration [] d = Except.error FormatErr.emptyArgs)
    ∧ parse_duration ["abc"] DUnit.seconds = Except.error FormatErr.noLeadingNumber
    ∧ ∀ (args : List String) (d : DUnit),
        (∃ n, parse_duration args d = Except.ok n)
          ↔ (args ≠ [] ∧ ∀ a ∈ args, tokenOk (pyLowerChars a) = true) := by
  refine ⟨fun d => rfl, rfl, ?_⟩
  intro args d
  cases args with
  | nil => simp [parse_duration]
  | cons a rest =>
    rw [show parse_duration (a :: rest) d = goTokens (a :: rest) d from rfl]
    rw [goTokens_ok_iff]
    simp

/-- C10 witness: a scannable token list parses successfully, matching the
characterization. -/
theorem C10_parse_duration_failure_witness :
    ∃ n, parse_duration ["90s"] DUnit.minutes = Except.ok n :=
  (C10_parse_duration_failure.2.2 ["90s"] DUnit.minutes).mpr (by decide)

end Randobot
